import Mathlib

/-!
Verification development for the video-progress-bar CLI.

This file shallowly embeds the core of the repository:
* `src/video_processing/utils/time_utils.py` (`time_string_to_seconds`),
* `src/video_processing/utils/progress_parser.py` (`FFmpegProgressParser`),
* `src/video_processing/processors/progress_bar.py`
  (`convert_color_to_ffmpeg_format`, `COLOR_SCHEMES`, the constructor's color
  resolution, `_normalize_chapters`, `_truncate_text_by_width`,
  `_build_filter_complex`),
and proves the behavioural properties stated about them.

Conventions of the embedding:
* Python floats are modelled as rationals (`ℚ`); the concrete values exercised
  here are exactly representable, and `round(x, n)` / `f-string .3f` rounding is
  modelled by `pyRound` (round half up; Python rounds half to even, which
  differs only at exact ties that never occur in the statements below).
* Python `int` is `ℤ`/`ℕ`, strings are Lean `String` / `List Char`.
* Code that can raise returns `Option` (`none` = exception).
-/

namespace VPB

/-- Python `round(x, n)` on the exact rationals used in this development:
round to `n` decimal digits.  (Half-way ties round up here; the source rounds
ties to even, a difference that never arises in the facts proved below.) -/
def pyRound (ndigits : ℕ) (x : ℚ) : ℚ :=
  ((⌊x * 10 ^ ndigits + 1 / 2⌋ : ℤ) : ℚ) / 10 ^ ndigits

/-- Python `int(x)` on a rational: truncation toward zero. -/
def pyInt (x : ℚ) : ℤ :=
  if 0 ≤ x then ⌊x⌋ else -⌊-x⌋

/-- The whitespace characters stripped by Python's `str.strip()` / `float()`
(the ASCII subset; no input in this development carries exotic whitespace). -/
def isPySpace (c : Char) : Bool :=
  c = ' ' || c = '\t' || c = '\n' || c = '\r' || c = '\x0b' || c = '\x0c'

/-- Python `str.strip()` on a character list. -/
def stripChars (l : List Char) : List Char :=
  ((l.dropWhile isPySpace).reverse.dropWhile isPySpace).reverse

/-- Python `str.strip()`. -/
def pyStrip (s : String) : String :=
  ⟨stripChars s.data⟩

/-- Numeric value of a decimal digit character. -/
def digitVal (c : Char) : ℕ := c.toNat - '0'.toNat

/-- Consume a maximal run of decimal digits, returning the accumulated value,
the number of digits read, and the remaining characters. -/
def readDigitsAux : ℕ → ℕ → List Char → ℕ × ℕ × List Char
  | acc, cnt, [] => (acc, cnt, [])
  | acc, cnt, c :: rest =>
    if c.isDigit then readDigitsAux (acc * 10 + digitVal c) (cnt + 1) rest
    else (acc, cnt, c :: rest)

/-- The optional leading sign of a numeric literal: its value and the
remaining characters. -/
def splitSign : List Char → ℚ × List Char
  | '+' :: r => (1, r)
  | '-' :: r => (-1, r)
  | r => (1, r)

/-- Python `float(str)` on a character list that has already been stripped:
an optional sign, then digits with an optional decimal point (at least one
digit overall).  The exponent / `inf` / `nan` / underscore forms accepted by
Python never occur in this repository's inputs and are not modelled. -/
def pyFloatCore (l : List Char) : Option ℚ :=
  let sign := (splitSign l).1
  let p := readDigitsAux 0 0 (splitSign l).2
  match p.2.2 with
  | [] => if 0 < p.2.1 then some (sign * p.1) else none
  | '.' :: r =>
    let q := readDigitsAux 0 0 r
    if q.2.2 = [] ∧ 0 < p.2.1 + q.2.1 then
      some (sign * ((p.1 : ℚ) + (q.1 : ℚ) / 10 ^ q.2.1))
    else none
  | _ => none

/-- Python `float(str)` on one piece of a split string (Python `float` strips
surrounding whitespace itself). -/
def pyFloatPart (l : List Char) : Option ℚ :=
  pyFloatCore (stripChars l)

/-- Python `float(str)` on a `String`. -/
def pyFloatOfString (s : String) : Option ℚ :=
  pyFloatPart s.data

/-- Python `str.split(sep)` for a one-character separator. -/
def pySplit (sep : Char) : List Char → List (List Char)
  | [] => [[]]
  | c :: rest =>
    let r := pySplit sep rest
    if c = sep then [] :: r
    else
      match r with
      | h :: t => (c :: h) :: t
      | [] => [[c]]

/-- Embedding of `time_utils.time_string_to_seconds`: strip, try `float`,
otherwise split on `:` into two or three numeric parts; `none` models the
`ValueError` raised on any other shape. -/
def time_string_to_seconds (timeStr : String) : Option ℚ :=
  let t := stripChars timeStr.data
  match pyFloatPart t with
  | some v => some v
  | none =>
    match pySplit ':' t with
    | [m, s] =>
      match pyFloatPart m, pyFloatPart s with
      | some mv, some sv => some (mv * 60 + sv)
      | _, _ => none
    | [h, m, s] =>
      match pyFloatPart h, pyFloatPart m, pyFloatPart s with
      | some hv, some mv, some sv => some (hv * 3600 + mv * 60 + sv)
      | _, _, _ => none
    | _ => none

/-- The time-string grammar exactly as the specification words it (spec §6):
a bare number is seconds, `MM:SS` is `minutes*60+seconds`, `HH:MM:SS` is
`hours*3600+minutes*60+seconds`, and any other shape is a parse error.
This is the refinement-comparison definition for the shared time parser; it
classifies a (stripped) string purely by its colon-separated shape. -/
def timeGrammarSpec (timeStr : String) : Option ℚ :=
  let t := stripChars timeStr.data
  match pySplit ':' t with
  | [n] => pyFloatPart n
  | [m, s] =>
    match pyFloatPart m, pyFloatPart s with
    | some mv, some sv => some (mv * 60 + sv)
    | _, _ => none
  | [h, m, s] =>
    match pyFloatPart h, pyFloatPart m, pyFloatPart s with
    | some hv, some mv, some sv => some (hv * 3600 + mv * 60 + sv)
    | _, _, _ => none
  | _ => none

/-! ### TextFitter: `_truncate_text_by_width` -/

/-- Estimated pixel width of one character (`_truncate_text_by_width`):
CJK ranges U+4E00–U+9FFF, U+3000–U+303F, U+FF00–U+FFEF count as `fontSize`
pixels, anything else as `fontSize * 0.5`. -/
def charWidth (fontSize : ℤ) (c : Char) : ℚ :=
  if ('\u4E00' ≤ c ∧ c ≤ '\u9FFF') ∨ ('\u3000' ≤ c ∧ c ≤ '\u303F') ∨
     ('\uFF00' ≤ c ∧ c ≤ '\uFFEF') then
    (fontSize : ℚ)
  else
    (fontSize : ℚ) * (1 / 2)

/-- The greedy accumulation loop of `_truncate_text_by_width`: keep characters
while the running width stays within the budget, cut at the first overflow.
(The source returns the original `text` when the loop finishes without an
overflow; at that point it equals the accumulated prefix returned here.) -/
def truncLoop (fontSize : ℤ) (maxWidthPx : ℚ) : ℚ → List Char → List Char
  | _, [] => []
  | est, c :: rest =>
    let cw := charWidth fontSize c
    if est + cw ≤ maxWidthPx then c :: truncLoop fontSize maxWidthPx (est + cw) rest
    else []

/-- Embedding of `ProgressBarProcessor._truncate_text_by_width`. -/
def truncate_text_by_width (text : String) (maxWidthPx : ℚ) (fontSize : ℤ) : String :=
  if text = "" then text
  else if maxWidthPx < (fontSize : ℚ) * (1 / 2) then ""
  else ⟨truncLoop fontSize maxWidthPx 0 text.data⟩

/-! ### ColorResolver: `convert_color_to_ffmpeg_format` and `COLOR_SCHEMES` -/

/-- Uppercase hexadecimal digit for a value below 16 (Python `X` format). -/
def hexDigitChar (n : ℕ) : Char :=
  if n < 10 then Char.ofNat ('0'.toNat + n) else Char.ofNat ('A'.toNat + (n - 10))

/-- Hexadecimal digits of `n`, most significant first (`[]` for `0`);
fuel-structured so that it evaluates inside the kernel. -/
def hexCharsAux : ℕ → ℕ → List Char
  | 0, _ => []
  | _ + 1, 0 => []
  | fuel + 1, n + 1 => hexCharsAux fuel ((n + 1) / 16) ++ [hexDigitChar ((n + 1) % 16)]

/-- Hexadecimal digit string of a natural number. -/
def hexChars (n : ℕ) : List Char := hexCharsAux n n

/-- Python `f"{n:02X}"` for an integer: uppercase hexadecimal, zero padded to
width 2 (a sign, when present, occupies part of the width). -/
def format02X (n : ℤ) : String :=
  if n < 0 then
    let ds := hexChars (-n).toNat
    ⟨'-' :: List.replicate (1 - ds.length) '0' ++ ds⟩
  else
    let ds := hexChars n.toNat
    ⟨List.replicate (2 - ds.length) '0' ++ ds⟩

/-- The fixed named-color table of `convert_color_to_ffmpeg_format`. -/
def namedColors : List (String × ℕ × ℕ × ℕ) :=
  [("black", 0, 0, 0), ("white", 255, 255, 255), ("red", 255, 0, 0),
   ("green", 0, 255, 0), ("blue", 0, 0, 255), ("yellow", 255, 255, 0),
   ("cyan", 0, 255, 255), ("magenta", 255, 0, 255)]

/-- Look a color name up in the named-color table. -/
def lookupNamed (s : String) : Option (ℕ × ℕ × ℕ) :=
  (namedColors.find? (fun p => p.1 == s)).map (·.2)

/-- Whether a character occurs in a string (Python `c in s`). -/
def containsChar (c : Char) (s : String) : Bool :=
  s.data.contains c

/-- Python `s.startswith(pre)`. -/
def pyStartsWith (s pre : String) : Bool :=
  pre.data.isPrefixOf s.data

/-- Python `s[n:]`. -/
def pyDrop (s : String) (n : ℕ) : String :=
  ⟨s.data.drop n⟩

/-- Embedding of `convert_color_to_ffmpeg_format` (progress_bar.py lines
18–85).  `none` models the `ValueError` that `float(parts[1])` raises when an
`@` suffix is present in a two-part split but not parseable as a float; every
other input produces a string. -/
def convert_color_to_ffmpeg_format (colorStr : String) : Option String :=
  if colorStr = "" then some "black"
  else
    -- the fall-through tail of the function (lines 72–85)
    let tail : String :=
      if (namedColors.map (·.1)).contains colorStr then colorStr
      else if pyStartsWith colorStr "0x" then colorStr
      else if pyStartsWith colorStr "#" ∧ ¬ containsChar '@' colorStr then
        "0x" ++ pyDrop colorStr 1
      else colorStr
    if containsChar '@' colorStr then
      match pySplit '@' colorStr.data with
      | [basePart, alphaPart] =>
        let baseColor : String := ⟨stripChars basePart⟩
        match pyFloatPart alphaPart with
        | none => none
        | some alpha =>
          let alphaHex := pyInt (alpha * 255)
          match lookupNamed baseColor with
          | some (r, g, b) =>
            some ("0x" ++ format02X r ++ format02X g ++ format02X b ++ format02X alphaHex)
          | none =>
            if pyStartsWith baseColor "#" then
              some ("0x" ++ pyDrop baseColor 1 ++ format02X alphaHex)
            else some tail
      | _ => some tail
    else some tail

/-- The renderer-native hex+alpha serialized form the converter produces for a
structured color `{r, g, b, alpha}`: `0xRRGGBBAA` with the alpha byte
`int(alpha * 255)` (refinement-comparison definition for the color claims). -/
def rgbaSerialized (r g b : ℕ) (alpha : ℚ) : String :=
  "0x" ++ format02X r ++ format02X g ++ format02X b ++ format02X (pyInt (alpha * 255))

/-- One entry of `COLOR_SCHEMES`: background, bar, divider and text colors. -/
structure SchemeColors where
  bg_color : String
  bar_color : String
  divider_color : String
  text_color : String
  deriving DecidableEq

/-- Embedding of the `COLOR_SCHEMES` table of progress_bar.py. -/
def COLOR_SCHEMES : List (String × SchemeColors) :=
  [("default", ⟨"black@0.6", "#007AFF@0.9", "white@0.6", "white"⟩),
   ("cinema_gold", ⟨"#1A1A1A@0.7", "#D4AF37@0.9", "white@0.4", "white"⟩),
   ("tech_dark", ⟨"#002B36@0.8", "#2AA198@0.9", "#93A1A1@0.5", "white"⟩),
   ("sport_red", ⟨"black@0.6", "#E53935@0.9", "white@0.7", "white"⟩),
   ("minimal_ink", ⟨"white@0.3", "black@0.8", "black@0.5", "white"⟩),
   ("neon_cyber", ⟨"#18002E@0.8", "#FF00FF@0.9", "#00FFFF@0.6", "white"⟩),
   ("forest_zen", ⟨"#1B261B@0.7", "#66BB6A@0.9", "white@0.4", "white"⟩),
   ("industrial_alert", ⟨"black@0.7", "#FFD700@1.0", "black@0.5", "white"⟩),
   ("nordic_frost", ⟨"#2E3440@0.8", "#88C0D0@0.9", "white@0.5", "white"⟩),
   ("retro_vapor", ⟨"#240046@0.8", "#9D4EDD@0.9", "#E0AAFF@0.6", "white"⟩)]

/-- Scheme lookup (`color_scheme in COLOR_SCHEMES` / `COLOR_SCHEMES[s]`). -/
def schemeLookup (name : String) : Option SchemeColors :=
  (COLOR_SCHEMES.find? (fun p => p.1 == name)).map (·.2)

/-- `COLOR_SCHEMES[scheme]` after the unknown-scheme fallback: an unknown name
falls back to the `"default"` entry, as in the constructor. -/
def schemeColorsOf (name : String) : SchemeColors :=
  (schemeLookup name).getD ⟨"black@0.6", "#007AFF@0.9", "white@0.6", "white"⟩

/-- The four colors the constructor finally stores. -/
structure ResolvedColors where
  bg_color : String
  bar_color : String
  divider_color : String
  text_color : String
  deriving DecidableEq

/-- Embedding of the color-precedence logic of `ProgressBarProcessor.__init__`
(lines 270–313): a truthy `color_scheme` selects a scheme (unknown names fall
back to `"default"`), explicitly supplied individual colors override the
scheme's values; with no scheme, the `"default"` entry supplies the fallbacks.
The function is total: an unknown scheme only logs a warning, never raises. -/
def resolveColors (colorScheme : Option String)
    (bgColor barColor dividerColor textColor : Option String) : ResolvedColors :=
  if colorScheme.getD "" ≠ "" then
    let sc := schemeColorsOf (colorScheme.getD "")
    ⟨bgColor.getD sc.bg_color, barColor.getD sc.bar_color,
     dividerColor.getD sc.divider_color, textColor.getD sc.text_color⟩
  else
    let sc := schemeColorsOf "default"
    ⟨bgColor.getD sc.bg_color, barColor.getD sc.bar_color,
     dividerColor.getD sc.divider_color, textColor.getD sc.text_color⟩

/-! ### FilterGraphCompiler: `_build_filter_complex` -/

/-- A normalized chapter record, as produced by `_normalize_chapters`:
a start time in seconds and an optional title. -/
structure Chapter where
  time : ℚ
  title : Option String
  deriving DecidableEq

/-- Truthiness of an optional chapter title (Python `not title`). -/
def titleTruthy (t : Option String) : Bool :=
  t.getD "" ≠ ""

/-- Truthiness of the configured font path (`not self.font_path`): `None` and
the empty string are both falsy. -/
def fontTruthy (fp : Option String) : Bool :=
  fp.getD "" ≠ ""

/-- Embedding of `ProgressBarProcessor._has_titles`. -/
def hasTitles (chapters : List Chapter) : Bool :=
  chapters.any (fun c => titleTruthy c.title)

/-- The style inputs `_build_filter_complex` reads from the processor. -/
structure CompileStyle where
  barHeight : ℕ
  dividerWidth : ℕ
  fontPath : Option String
  fontSize : ℤ
  titleFadeDuration : ℚ
  bg_color : String
  bar_color : String
  divider_color : String
  text_color : String
  deriving DecidableEq

/-- One operation of the compiled overlay graph, in emission order.  Each
constructor records the data its emitted filter string carries: the background
`drawbox`, the sliding-fill `overlay` (whose x-expression is `slideX`), a
divider `drawbox`, a bottom chapter-label `drawtext`, and a corner-title
`drawtext` (whose alpha expression is `alphaEval` of the recorded window). -/
inductive FilterPart where
  | bgBar (barHeight : ℕ) (color : String)
  | slideOverlay (duration : ℚ) (videoWidth : ℕ) (barHeight : ℕ)
  | divider (startPct : ℚ) (barHeight dividerWidth : ℕ) (color : String)
  | label (centerPct : ℚ) (text : String) (fontSize : ℤ) (color : String)
  | corner (fadeStart startT endT fadeEnd : ℚ) (text : String)
  deriving DecidableEq

/-- The sliding-fill x-position emitted in the overlay expression
(`x = (t/duration - 1) * video_width`, progress_bar.py line 618). -/
def slideX (duration : ℚ) (videoWidth : ℕ) (t : ℚ) : ℚ :=
  (t / duration - 1) * (videoWidth : ℚ)

/-- Value of the emitted corner-title alpha expression (progress_bar.py lines
760–771) at playback time `t`.  The expression nests `if(between(...))`
branches built inside-out — fade-out, then the constant-1 hold, then fade-in —
and every time constant is serialized with Python's `:.3f` format, modelled by
`pyRound 3`.  The fade-in/fade-out branch is emitted only when the
corresponding (unrounded) window half has positive length. -/
def alphaEval (startT endT fadeStart fadeEnd : ℚ) (t : ℚ) : ℚ :=
  let s3 := pyRound 3 startT
  let e3 := pyRound 3 endT
  let fs3 := pyRound 3 fadeStart
  let fe3 := pyRound 3 fadeEnd
  let fadeInDuration := if fadeStart < startT then startT - fadeStart else 0
  let fadeOutDuration := if endT < fadeEnd then fadeEnd - endT else 0
  let a0 : ℚ := 0
  let a1 : ℚ :=
    if 0 < fadeOutDuration then
      if e3 ≤ t ∧ t ≤ fe3 then 1 - (t - e3) / pyRound 3 fadeOutDuration else a0
    else a0
  let a2 : ℚ := if s3 ≤ t ∧ t ≤ e3 then 1 else a1
  if 0 < fadeInDuration then
    if fs3 ≤ t ∧ t ≤ s3 then (t - fs3) / pyRound 3 fadeInDuration else a2
  else a2

/-- A time value that is an exact multiple of one millisecond — exactly the
values left unchanged by the `:.3f` serialization the emitted expressions
use for every time constant. -/
def millis (x : ℚ) : Prop :=
  ∃ k : ℤ, x = (k : ℚ) / 1000

/-- The divider pass of `_build_filter_complex` (lines 631–646) for one
chapter: skip chapters at or beyond the duration, skip the implicit first
chapter (`start_time > 0.5` tolerance), otherwise draw a divider at fraction
`round(start/duration, 6)` of the frame width. -/
def dividerOp (duration : ℚ) (barHeight dividerWidth : ℕ) (color : String)
    (c : Chapter) : Option FilterPart :=
  if duration ≤ c.time then none
  else if 1 / 2 < c.time then
    some (.divider (pyRound 6 (c.time / duration)) barHeight dividerWidth color)
  else none

/-- The bottom-label pass of `_build_filter_complex` (lines 648–706) for one
chapter, given the raw end time (the next chapter's start, or the duration):
requires a truthy title and font path, skips chapters at or beyond the
duration, truncates the title to 90% of the segment's pixel width, and skips
the label when the truncation is empty; the label is centered at the segment
midpoint fraction. -/
def labelOp (fontPath : Option String) (fontSize : ℤ) (videoWidth : ℕ)
    (duration : ℚ) (textColor : String) (c : Chapter) (endTime0 : ℚ) :
    Option FilterPart :=
  if ¬ titleTruthy c.title ∨ ¬ fontTruthy fontPath then none
  else if duration ≤ c.time then none
  else
    let endTime := min endTime0 duration
    let startPct := pyRound 6 (c.time / duration)
    let endPct := pyRound 6 (endTime / duration)
    let centerPct := pyRound 6 ((startPct + endPct) / 2)
    let segmentWidthPx := (endPct - startPct) * (videoWidth : ℚ) * (9 / 10)
    let truncatedTitle := truncate_text_by_width (c.title.getD "") segmentWidthPx fontSize
    if truncatedTitle = "" then none
    else some (.label centerPct truncatedTitle fontSize textColor)

/-- The corner-title pass of `_build_filter_complex` (lines 734–784) for one
chapter, given the raw end time: requires a truthy title, skips chapters at or
beyond the duration, and records the fade window
`[max 0 (start - fade/2), min duration (end + fade/2)]`. -/
def cornerOp (duration : ℚ) (titleFadeDuration : ℚ) (c : Chapter)
    (endTime0 : ℚ) : Option FilterPart :=
  if ¬ titleTruthy c.title then none
  else if duration ≤ c.time then none
  else
    let endTime := min endTime0 duration
    let fadeHalf := titleFadeDuration / 2
    let fadeStart := max 0 (c.time - fadeHalf)
    let fadeEnd := min duration (endTime + fadeHalf)
    some (.corner fadeStart c.time endTime fadeEnd (c.title.getD ""))

/-- Pair every chapter with its raw end time: the next chapter's start time if
there is one, else the total duration
(`self.chapters_data[i+1]["time"] if i+1 < len(...) else duration`). -/
def withEndTimes (duration : ℚ) : List Chapter → List (Chapter × ℚ)
  | [] => []
  | c :: rest =>
    (c, match rest with | [] => duration | c2 :: _ => c2.time) :: withEndTimes duration rest

/-- Embedding of `_build_filter_complex`: convert the three colors (a failed
conversion raises, modelled by `none`), then emit the background bar, the
sliding fill, and the divider / bottom-label / corner-title passes in order.
The corner pass runs only when a font is configured and some chapter has a
title.  No other input condition can fail: chapters beyond the duration are
skipped silently inside the passes. -/
def build_filter_complex (st : CompileStyle) (duration : ℚ)
    (videoWidth _videoHeight : ℕ) (chapters : List Chapter) :
    Option (List FilterPart) :=
  match convert_color_to_ffmpeg_format st.bg_color,
        convert_color_to_ffmpeg_format st.bar_color,
        convert_color_to_ffmpeg_format st.divider_color with
  | some bgColorFfmpeg, some _barColorFfmpeg, some dividerColorFfmpeg =>
    let dividers := chapters.filterMap
      (dividerOp duration st.barHeight st.dividerWidth dividerColorFfmpeg)
    let labels := (withEndTimes duration chapters).filterMap
      (fun p => labelOp st.fontPath st.fontSize videoWidth duration st.text_color p.1 p.2)
    let corners :=
      if fontTruthy st.fontPath ∧ hasTitles chapters then
        (withEndTimes duration chapters).filterMap
          (fun p => cornerOp duration st.titleFadeDuration p.1 p.2)
      else []
    some ([.bgBar st.barHeight bgColorFfmpeg,
           .slideOverlay duration videoWidth st.barHeight] ++
          dividers ++ labels ++ corners)
  | _, _, _ => none

/-- Whether a graph operation is a chapter divider. -/
def isDivider : FilterPart → Bool
  | .divider _ _ _ _ => true
  | _ => false

/-- Whether a graph operation is a bottom chapter label. -/
def isLabel : FilterPart → Bool
  | .label _ _ _ _ => true
  | _ => false

/-- Whether a graph operation is a corner title. -/
def isCorner : FilterPart → Bool
  | .corner _ _ _ _ _ => true
  | _ => false

/-- Whether a graph operation is a text operation (bottom label or corner
title). -/
def isTextOp (p : FilterPart) : Bool :=
  isLabel p || isCorner p

/-- Number of chapter dividers in a compiled graph. -/
def dividerCount (parts : List FilterPart) : ℕ :=
  (parts.filter isDivider).length

/-- Number of bottom chapter labels in a compiled graph. -/
def labelCount (parts : List FilterPart) : ℕ :=
  (parts.filter isLabel).length

/-- The horizontal center fractions of the bottom chapter labels, in emission
order. -/
def labelCenters (parts : List FilterPart) : List ℚ :=
  parts.filterMap (fun p => match p with | .label c _ _ _ => some c | _ => none)

/-! ### ProgressMonitor: `FFmpegProgressParser` -/

/-- Read exactly two decimal digits, returning their value and the rest. -/
def matchTwoDigits : List Char → Option (ℕ × List Char)
  | a :: b :: rest =>
    if a.isDigit && b.isDigit then some (10 * digitVal a + digitVal b, rest) else none
  | _ => none

/-- Match `TIME_PATTERN` (`time=(\d{2}):(\d{2}):(\d{2})\.(\d{2})`) anchored at
the head of the list, returning the elapsed seconds
`hours*3600 + minutes*60 + seconds + centiseconds/100`. -/
def matchLongTimeAt : List Char → Option ℚ
  | 't' :: 'i' :: 'm' :: 'e' :: '=' :: r =>
    match matchTwoDigits r with
    | some (hh, ':' :: r2) =>
      match matchTwoDigits r2 with
      | some (mm, ':' :: r3) =>
        match matchTwoDigits r3 with
        | some (ss, '.' :: r4) =>
          match matchTwoDigits r4 with
          | some (cc, _) => some ((hh : ℚ) * 3600 + (mm : ℚ) * 60 + (ss : ℚ) + (cc : ℚ) / 100)
          | none => none
        | _ => none
      | _ => none
    | _ => none
  | _ => none

/-- Match `TIME_PATTERN_SHORT` (`time=(\d+)\.(\d{2})`) anchored at the head of
the list.  The greedy `\d+` never backtracks usefully because the following
`.` is not a digit, so a maximal digit run followed by `.` and two digits is
exactly the regex's behaviour. -/
def matchShortTimeAt : List Char → Option ℚ
  | 't' :: 'i' :: 'm' :: 'e' :: '=' :: r =>
    let p := readDigitsAux 0 0 r
    if p.2.1 = 0 then none
    else
      match p.2.2 with
      | '.' :: r2 =>
        match matchTwoDigits r2 with
        | some (cc, _) => some ((p.1 : ℚ) + (cc : ℚ) / 100)
        | none => none
      | _ => none
  | _ => none

/-- `re.search`: try an anchored matcher at every position, leftmost first. -/
def reSearch {α : Type} (m : List Char → Option α) : List Char → Option α
  | [] => m []
  | l@(_ :: rest) =>
    match m l with
    | some v => some v
    | none => reSearch m rest

/-- Embedding of `FFmpegProgressParser._parse_time`: search for the long
`HH:MM:SS.cc` form first, then for the short `SS.cc` form. -/
def parse_time (line : String) : Option ℚ :=
  match reSearch matchLongTimeAt line.data with
  | some v => some v
  | none => reSearch matchShortTimeAt line.data

/-- Match `FRAME_PATTERN` (`frame=\s*(\d+)`) anchored at the head. -/
def matchFrameAt : List Char → Option ℕ
  | 'f' :: 'r' :: 'a' :: 'm' :: 'e' :: '=' :: r =>
    let p := readDigitsAux 0 0 (r.dropWhile isPySpace)
    if p.2.1 = 0 then none else some p.1
  | _ => none

/-- Match `SPEED_PATTERN` (`speed=\s*([\d.]+)x`) anchored at the head,
returning the captured digits-and-dots group (which `float(...)` then
parses, possibly raising). -/
def matchSpeedAt : List Char → Option (List Char)
  | 's' :: 'p' :: 'e' :: 'e' :: 'd' :: '=' :: r =>
    let r2 := r.dropWhile isPySpace
    let run := r2.takeWhile (fun c => c.isDigit || c = '.')
    if run = [] then none
    else
      match r2.drop run.length with
      | 'x' :: _ => some run
      | _ => none
  | _ => none

/-- The mutable state of `FFmpegProgressParser` (wall-clock instants are
passed explicitly in place of `datetime.now()`). -/
structure ParserState where
  totalDuration : ℚ
  lastProgress : ℚ
  lastTime : ℚ
  startTime : ℚ
  lastUpdateTime : ℚ
  currentSpeed : ℚ
  processedFrames : ℕ
  deriving DecidableEq

/-- Embedding of `FFmpegProgressParser.__init__`, constructed at wall-clock
instant `now`. -/
def mkParser (totalDuration : ℚ) (now : ℚ) : ParserState :=
  { totalDuration := totalDuration, lastProgress := 0, lastTime := 0,
    startTime := now, lastUpdateTime := now, currentSpeed := 1,
    processedFrames := 0 }

/-- Embedding of `FFmpegProgressParser._update_speed`: at most once per half
second of wall-clock time, blend the instantaneous speed
`Δelapsed / Δwallclock` into the smoothed speed with weights 0.7 / 0.3. -/
def update_speed (st : ParserState) (currentTime : ℚ) (now : ℚ) : ParserState :=
  let timeDelta := now - st.lastUpdateTime
  if 1 / 2 < timeDelta then
    let timeProgress := currentTime - st.lastTime
    if 0 < timeProgress then
      { st with
          currentSpeed := 7 / 10 * st.currentSpeed + 3 / 10 * (timeProgress / timeDelta),
          lastUpdateTime := now }
    else st
  else st

/-- Embedding of `FFmpegProgressParser._parse_other_info`: update the frame
count and the reported speed multiplier when their fields occur; `none`
models the `ValueError` that `float` raises on a malformed captured speed
group such as `1.2.3`. -/
def parse_other_info (st : ParserState) (line : String) : Option ParserState :=
  let st1 :=
    match reSearch matchFrameAt line.data with
    | some n => { st with processedFrames := n }
    | none => st
  match reSearch matchSpeedAt line.data with
  | some run =>
    match pyFloatPart run with
    | some v => some { st1 with currentSpeed := v }
    | none => none
  | none => some st1

/-- Embedding of `FFmpegProgressParser.parse_line` at wall-clock instant
`now`: extract an elapsed time, clamp `elapsed/duration` to 1, update the
smoothed speed and auxiliary fields, record the new progress, and return it;
lines without a time field leave the state unchanged and return no progress.
The outer `none` models an uncaught exception. -/
def parse_line (st : ParserState) (line : String) (now : ℚ) :
    Option (ParserState × Option ℚ) :=
  match parse_time line with
  | some timeSeconds =>
    let progress := min (timeSeconds / st.totalDuration) 1
    let st1 := update_speed st timeSeconds now
    match parse_other_info st1 line with
    | none => none
    | some st2 =>
      some ({ st2 with lastProgress := progress, lastTime := timeSeconds },
            some progress)
  | none => some (st, none)

/-! ### Concrete scenarios -/

/-- The default style of the end-to-end scenario: `bar_height=80`,
`divider_width=2`, `font_size=28`, `title_fade_duration=0.5`, the `"default"`
color scheme, and a configured font. -/
def c1style : CompileStyle :=
  { barHeight := 80, dividerWidth := 2,
    fontPath := some "/Library/Fonts/Arial Unicode.ttf", fontSize := 28,
    titleFadeDuration := 1 / 2,
    bg_color := "black@0.6", bar_color := "#007AFF@0.9",
    divider_color := "white@0.6", text_color := "white" }

/-- The chapters of the end-to-end scenario. -/
def c1chapters : List Chapter :=
  [⟨0, some "Intro"⟩, ⟨30, some "Part1"⟩, ⟨150, some "Part2"⟩]

/-- The default style with no configured font path. -/
def c9style : CompileStyle :=
  { c1style with fontPath := none }

/-- The two-line progress scenario: a monitor for a 100-second video built at
wall-clock instant 0 receives `time=00:00:10.00` immediately and
`time=00:00:20.00` one wall-clock second later; the run returns the second
reported progress and the smoothed speed afterwards. -/
def c4run : Option (Option ℚ × ℚ) :=
  match parse_line (mkParser 100 0) "time=00:00:10.00" 0 with
  | some (st1, _) =>
    (parse_line st1 "time=00:00:20.00" 1).map (fun p => (p.2, p.1.currentSpeed))
  | none => none

/-! ### Helper lemmas -/

@[simp] theorem digitVal_0 : digitVal '0' = 0 := by decide

@[simp] theorem digitVal_1 : digitVal '1' = 1 := by decide

@[simp] theorem digitVal_2 : digitVal '2' = 2 := by decide

@[simp] theorem digitVal_3 : digitVal '3' = 3 := by decide

@[simp] theorem digitVal_4 : digitVal '4' = 4 := by decide

@[simp] theorem digitVal_5 : digitVal '5' = 5 := by decide

@[simp] theorem digitVal_6 : digitVal '6' = 6 := by decide

@[simp] theorem digitVal_7 : digitVal '7' = 7 := by decide

@[simp] theorem digitVal_8 : digitVal '8' = 8 := by decide

@[simp] theorem digitVal_9 : digitVal '9' = 9 := by decide

/-- The greedy truncation loop is idempotent: re-truncating its own output at
the same running width returns it unchanged. -/
theorem truncLoop_idempotent (fontSize : ℤ) (maxWidthPx : ℚ) :
    ∀ (l : List Char) (est : ℚ),
      truncLoop fontSize maxWidthPx est (truncLoop fontSize maxWidthPx est l)
        = truncLoop fontSize maxWidthPx est l := by
  intro l
  induction l with
  | nil => intro est; simp [truncLoop]
  | cons c rest ih =>
    intro est
    by_cases h : est + charWidth fontSize c ≤ maxWidthPx
    · simp only [truncLoop, h, if_pos h, ite_true]
      exact congrArg (c :: ·) (ih (est + charWidth fontSize c))
    · simp [truncLoop, h]

/-! ### The claims -/

/-- C7: for every string, pixel budget and font size, truncating an
already-truncated string again with the same budget and font size returns it
unchanged: `_truncate_text_by_width` is idempotent. -/
theorem c7_truncate_idempotent (s : String) (w : ℚ) (f : ℤ) :
    truncate_text_by_width (truncate_text_by_width s w f) w f
      = truncate_text_by_width s w f := by
  unfold truncate_text_by_width
  split_ifs <;>
    first
      | rfl
      | (exact congrArg String.mk (truncLoop_idempotent f w s.data 0))

/-- C6: the color converter resolves `"white@0.5"` to the color
`{255,255,255,0.5}` and `"#00AAAA@0.5"` to `{0,170,170,0.5}`, each in the
renderer-native hex+alpha serialized form the converter produces
(`0xRRGGBBAA` with alpha byte `int(alpha*255)`). -/
theorem c6_color_round_trip :
    convert_color_to_ffmpeg_format "white@0.5" = some (rgbaSerialized 255 255 255 (1 / 2)) ∧
    convert_color_to_ffmpeg_format "#00AAAA@0.5" = some (rgbaSerialized 0 170 170 (1 / 2)) ∧
    rgbaSerialized 255 255 255 (1 / 2) = "0xFFFFFF7F" ∧
    rgbaSerialized 0 170 170 (1 / 2) = "0x00AAAA7F" := by
  refine ⟨?_, ?_, ?_, ?_⟩ <;>
    norm_num +decide [convert_color_to_ffmpeg_format, rgbaSerialized, containsChar, pySplit,
      pyFloatPart, pyFloatCore, splitSign, stripChars, isPySpace, readDigitsAux, lookupNamed,
      namedColors, pyInt, format02X, hexChars, hexCharsAux, hexDigitChar, pyStartsWith, pyDrop]

/-- C10: a non-empty `color_scheme` string that is not in the scheme table
raises no error and resolves the background, bar, divider and text colors
exactly as the `"default"` scheme would, with explicitly supplied individual
colors still overriding the scheme values (`resolveColors` is total, so no
exception path exists). -/
theorem c10_unknown_scheme_default (s : String) (hs : s ≠ "")
    (hu : schemeLookup s = none) (bg bar dv txt : Option String) :
    resolveColors (some s) bg bar dv txt
      = resolveColors (some "default") bg bar dv txt ∧
    ∀ b r d t : String,
      resolveColors (some s) (some b) (some r) (some d) (some t) = ⟨b, r, d, t⟩ := by
  have hdef : schemeLookup "default" = some ⟨"black@0.6", "#007AFF@0.9", "white@0.6", "white"⟩ := by
    decide
  constructor
  · simp [resolveColors, schemeColorsOf, hu, hs, hdef]
  · intro b r d t
    simp [resolveColors, schemeColorsOf, hu, hs]

/-- Witness for C10 at the concrete scheme name `"tech_glow"` (a name the
constructor's docstring advertises but the table does not contain). -/
theorem c10_unknown_scheme_default_witness :
    (resolveColors (some "tech_glow") (some "red") none none none
      = resolveColors (some "default") (some "red") none none none) ∧
    ∀ b r d t : String,
      resolveColors (some "tech_glow") (some b) (some r) (some d) (some t) = ⟨b, r, d, t⟩ :=
  c10_unknown_scheme_default "tech_glow" (by decide) (by decide) (some "red") none none none

/-- Shape of any successfully compiled graph: the background bar, the sliding
fill, then the divider, label and corner passes in order. -/
theorem build_parts_shape (st : CompileStyle) (duration : ℚ) (W H : ℕ)
    (chapters : List Chapter) (parts : List FilterPart)
    (hb : build_filter_complex st duration W H chapters = some parts) :
    ∃ bgc divc,
      parts = [FilterPart.bgBar st.barHeight bgc,
               FilterPart.slideOverlay duration W st.barHeight] ++
        chapters.filterMap (dividerOp duration st.barHeight st.dividerWidth divc) ++
        (withEndTimes duration chapters).filterMap
          (fun p => labelOp st.fontPath st.fontSize W duration st.text_color p.1 p.2) ++
        (if fontTruthy st.fontPath ∧ hasTitles chapters then
          (withEndTimes duration chapters).filterMap
            (fun p => cornerOp duration st.titleFadeDuration p.1 p.2)
        else []) := by
  unfold build_filter_complex at hb
  split at hb
  · exact ⟨_, _, by simpa using (Option.some.inj hb).symm⟩
  · exact Option.noConfusion hb

/-- A divider-pass operation is never a text operation. -/
theorem dividerOp_not_text (duration : ℚ) (bh dw : ℕ) (col : String)
    (c : Chapter) (p : FilterPart) (h : dividerOp duration bh dw col c = some p) :
    isTextOp p = false := by
  unfold dividerOp at h
  split_ifs at h
  rw [← Option.some.inj h]
  rfl

/-- C2: for every compile with positive duration `d` and frame width `W`, the
produced graph carries the sliding-fill overlay whose emitted horizontal
position is `slideX d W`, and that position satisfies `x(0) = -W`,
`x(d) = 0`, and is linear in `t`. -/
theorem c2_sliding_fill (st : CompileStyle) (duration : ℚ) (W H : ℕ)
    (chapters : List Chapter) (parts : List FilterPart) (hd : 0 < duration)
    (hb : build_filter_complex st duration W H chapters = some parts) :
    FilterPart.slideOverlay duration W st.barHeight ∈ parts ∧
    slideX duration W 0 = -(W : ℚ) ∧
    slideX duration W duration = 0 ∧
    ∃ a b : ℚ, ∀ t : ℚ, slideX duration W t = a * t + b := by
  obtain ⟨bgc, divc, rfl⟩ := build_parts_shape st duration W H chapters parts hb
  refine ⟨by simp, ?_, ?_, ⟨(W : ℚ) / duration, -(W : ℚ), fun t => ?_⟩⟩
  · simp [slideX]
  · simp [slideX, div_self (ne_of_gt hd)]
  · field_simp [slideX]
    ring

/-- Witness for C2: the empty-chapter compile at duration 300 and width 1920
with the default style. -/
theorem c2_sliding_fill_witness :
    FilterPart.slideOverlay 300 1920 80 ∈
      ([FilterPart.bgBar 80 "0x00000099", FilterPart.slideOverlay 300 1920 80] :
        List FilterPart) ∧
    slideX 300 1920 0 = -(1920 : ℚ) ∧
    slideX 300 1920 300 = 0 ∧
    ∃ a b : ℚ, ∀ t : ℚ, slideX 300 1920 t = a * t + b := by
  have hb : build_filter_complex c1style 300 1920 1080 [] =
      some [FilterPart.bgBar 80 "0x00000099", FilterPart.slideOverlay 300 1920 80] := by
    norm_num +decide [build_filter_complex, c1style, withEndTimes, fontTruthy, hasTitles,
      convert_color_to_ffmpeg_format, containsChar, pySplit, pyFloatPart, pyFloatCore, splitSign,
      stripChars, isPySpace, readDigitsAux, lookupNamed, namedColors, pyInt,
      format02X, hexChars, hexCharsAux, hexDigitChar, pyStartsWith, pyDrop]
  simpa [c1style] using
    c2_sliding_fill c1style 300 1920 1080 [] _ (by norm_num) hb

/-- C1 counterexample: in the end-to-end scenario (duration 300, chapters at
0/30/150, width 1920), the three bottom labels' horizontal centers are
5%, 30% and 75% of the frame width; the claimed first center 7.5% (`3/40`)
differs from the emitted 5% (`1/20`). -/
theorem c1_scenario_counterexample :
    (build_filter_complex c1style 300 1920 1080 c1chapters).map labelCenters
      = some [1 / 20, 3 / 10, 3 / 4] ∧ ((1 : ℚ) / 20 ≠ 3 / 40) := by
  constructor
  · norm_num +decide [build_filter_complex, c1style, c1chapters, dividerOp, labelOp, cornerOp,
      withEndTimes, truncate_text_by_width, truncLoop, charWidth, pyRound, fontTruthy, titleTruthy,
      hasTitles, labelCenters,
      convert_color_to_ffmpeg_format, containsChar, pySplit, pyFloatPart, pyFloatCore, splitSign,
      stripChars, isPySpace, readDigitsAux, lookupNamed, namedColors, pyInt,
      format02X, hexChars, hexCharsAux, hexDigitChar, pyStartsWith, pyDrop,
      List.filterMap_cons, List.filterMap_nil, min_def, max_def]
  · norm_num

/-- C1 (amended): the end-to-end scenario's graph has exactly 2 dividers
(the chapter at 0 is skipped), exactly 3 bottom labels, contains the
background bar and the sliding fill, and the labels' horizontal centers are
5%, 30% and 75% of the frame width. -/
theorem c1_scenario_amended :
    (build_filter_complex c1style 300 1920 1080 c1chapters).map
        (fun parts => (dividerCount parts, labelCount parts,
          parts.contains (FilterPart.bgBar 80 "0x00000099"),
          parts.contains (FilterPart.slideOverlay 300 1920 80),
          labelCenters parts))
      = some (2, 3, true, true, [1 / 20, 3 / 10, 3 / 4]) := by
  norm_num +decide [build_filter_complex, c1style, c1chapters, dividerOp, labelOp, cornerOp,
    withEndTimes, truncate_text_by_width, truncLoop, charWidth, pyRound, fontTruthy, titleTruthy,
    hasTitles, labelCenters, dividerCount, labelCount, isDivider, isLabel,
    convert_color_to_ffmpeg_format, containsChar, pySplit, pyFloatPart, pyFloatCore, splitSign,
    stripChars, isPySpace, readDigitsAux, lookupNamed, namedColors, pyInt,
    format02X, hexChars, hexCharsAux, hexDigitChar, pyStartsWith, pyDrop,
    List.filterMap_cons, List.filterMap_nil, min_def, max_def]

/-- C5: every chapter whose start time is at or beyond the duration is
silently dropped by all three passes — it contributes no divider, no bottom
label and no corner title (each pass is a total function, so no error can be
raised for such a chapter). -/
theorem c5_out_of_range_chapter (duration fadeDur endTime0 : ℚ) (bh dw : ℕ)
    (divCol txtCol : String) (fontPath : Option String) (fontSize : ℤ)
    (W : ℕ) (c : Chapter) (h : duration ≤ c.time) :
    dividerOp duration bh dw divCol c = none ∧
    labelOp fontPath fontSize W duration txtCol c endTime0 = none ∧
    cornerOp duration fadeDur c endTime0 = none := by
  refine ⟨?_, ?_, ?_⟩ <;> simp [dividerOp, labelOp, cornerOp, h]

/-- Witness for C5: a chapter at 301 seconds with duration 300 produces no
divider, no bottom label and no corner title. -/
theorem c5_out_of_range_chapter_witness :
    dividerOp 300 80 2 "0xFFFFFF99" ⟨301, some "X"⟩ = none ∧
    labelOp (some "/Library/Fonts/Arial Unicode.ttf") 28 1920 300 "white"
      ⟨301, some "X"⟩ 300 = none ∧
    cornerOp 300 (1 / 2) ⟨301, some "X"⟩ 300 = none :=
  c5_out_of_range_chapter 300 (1 / 2) 300 80 2 "0xFFFFFF99" "white"
    (some "/Library/Fonts/Arial Unicode.ttf") 28 1920 ⟨301, some "X"⟩ (by norm_num)

/-- C9: when no font path is configured (`None` or empty), a successful
compile emits no text operation at all — no bottom label and no corner title,
even for titled chapters — and the graph still carries the background bar,
the sliding fill and the dividers. -/
theorem c9_no_font_no_text (st : CompileStyle) (duration : ℚ) (W H : ℕ)
    (chapters : List Chapter) (parts : List FilterPart)
    (hfont : fontTruthy st.fontPath = false)
    (hb : build_filter_complex st duration W H chapters = some parts) :
    (∀ p ∈ parts, isTextOp p = false) ∧
    (∃ c, FilterPart.bgBar st.barHeight c ∈ parts) ∧
    FilterPart.slideOverlay duration W st.barHeight ∈ parts := by
  obtain ⟨bgc, divc, rfl⟩ := build_parts_shape st duration W H chapters parts hb
  have hlab : (withEndTimes duration chapters).filterMap
      (fun p => labelOp st.fontPath st.fontSize W duration st.text_color p.1 p.2) = [] := by
    refine List.filterMap_eq_nil_iff.mpr (fun a _ => ?_)
    simp [labelOp, hfont]
  have hcor : (if fontTruthy st.fontPath ∧ hasTitles chapters then
      (withEndTimes duration chapters).filterMap
        (fun p => cornerOp duration st.titleFadeDuration p.1 p.2)
    else []) = [] := by
    simp [hfont]
  rw [hlab, hcor]
  refine ⟨?_, ⟨bgc, by simp⟩, by simp⟩
  intro p hp
  simp only [List.append_nil] at hp
  rcases List.mem_append.mp hp with hmain | hdivs
  · rcases List.mem_cons.mp hmain with rfl | h2
    · rfl
    · rcases List.mem_cons.mp h2 with rfl | h3
      · rfl
      · cases h3
  · obtain ⟨c, _, hc⟩ := List.mem_filterMap.mp hdivs
    exact dividerOp_not_text duration st.barHeight st.dividerWidth divc c p hc

/-- Witness for C9: a compile with no font path and one titled chapter
produces only the background bar, the sliding fill and one divider. -/
theorem c9_no_font_no_text_witness :
    (∀ p ∈ ([FilterPart.bgBar 80 "0x00000099", FilterPart.slideOverlay 300 1920 80,
        FilterPart.divider (1 / 10) 80 2 "0xFFFFFF99"] : List FilterPart),
      isTextOp p = false) ∧
    (∃ c, FilterPart.bgBar 80 c ∈ ([FilterPart.bgBar 80 "0x00000099",
        FilterPart.slideOverlay 300 1920 80,
        FilterPart.divider (1 / 10) 80 2 "0xFFFFFF99"] : List FilterPart)) ∧
    FilterPart.slideOverlay 300 1920 80 ∈ ([FilterPart.bgBar 80 "0x00000099",
        FilterPart.slideOverlay 300 1920 80,
        FilterPart.divider (1 / 10) 80 2 "0xFFFFFF99"] : List FilterPart) := by
  have hb : build_filter_complex c9style 300 1920 1080 [⟨30, some "Part1"⟩] =
      some [FilterPart.bgBar 80 "0x00000099", FilterPart.slideOverlay 300 1920 80,
        FilterPart.divider (1 / 10) 80 2 "0xFFFFFF99"] := by
    norm_num +decide [build_filter_complex, c9style, c1style, dividerOp, labelOp, cornerOp,
      withEndTimes, fontTruthy, titleTruthy, hasTitles, pyRound,
      convert_color_to_ffmpeg_format, containsChar, pySplit, pyFloatPart, pyFloatCore, splitSign,
      stripChars, isPySpace, readDigitsAux, lookupNamed, namedColors, pyInt,
      format02X, hexChars, hexCharsAux, hexDigitChar, pyStartsWith, pyDrop,
      List.filterMap_cons, List.filterMap_nil, min_def, max_def]
  simpa [c9style, c1style] using
    c9_no_font_no_text c9style 300 1920 1080 [⟨30, some "Part1"⟩] _ (by rfl) hb

/-- Millisecond-exact values are fixed points of the `:.3f` rounding. -/
theorem pyRound3_eq_of_millis (x : ℚ) (h : millis x) : pyRound 3 x = x := by
  obtain ⟨k, rfl⟩ := h
  unfold pyRound
  have h1 : (k : ℚ) / 1000 * 10 ^ 3 + 1 / 2 = (k : ℚ) + 1 / 2 := by ring
  rw [h1, Int.floor_int_add]
  norm_num

/-- Millisecond-exactness is preserved by subtraction. -/
theorem millis_sub (a b : ℚ) (ha : millis a) (hb : millis b) : millis (a - b) := by
  obtain ⟨j, rfl⟩ := ha
  obtain ⟨k, rfl⟩ := hb
  exact ⟨j - k, by push_cast; ring⟩

/-- Closed form of the emitted alpha expression when every boundary time is
millisecond-exact and both fade halves are nonempty. -/
theorem alphaEval_closed_form (s e fs fe : ℚ) (hms : millis s) (hme : millis e)
    (hmfs : millis fs) (hmfe : millis fe) (hlead : fs < s) (htrail : e < fe) :
    ∀ t, alphaEval s e fs fe t =
      if fs ≤ t ∧ t ≤ s then (t - fs) / (s - fs)
      else if s ≤ t ∧ t ≤ e then 1
      else if e ≤ t ∧ t ≤ fe then 1 - (t - e) / (fe - e)
      else 0 := by
  intro t
  have rin : pyRound 3 (s - fs) = s - fs :=
    pyRound3_eq_of_millis _ (millis_sub _ _ hms hmfs)
  have rout : pyRound 3 (fe - e) = fe - e :=
    pyRound3_eq_of_millis _ (millis_sub _ _ hmfe hme)
  simp only [alphaEval, pyRound3_eq_of_millis s hms, pyRound3_eq_of_millis e hme,
    pyRound3_eq_of_millis fs hmfs, pyRound3_eq_of_millis fe hmfe,
    if_pos hlead, if_pos htrail, rin, rout,
    if_pos (sub_pos.mpr hlead), if_pos (sub_pos.mpr htrail)]

/-- C3 (amended): for every titled chapter whose segment boundaries and fade
window are millisecond-exact (the emitted expression serializes all time
constants with `:.3f`) and whose lead-in and trail-out halves are nonzero,
the emitted alpha expression is 1 at `startSeconds` and `endSeconds`, 0 at
the fade-window boundaries `fadeStart` and `fadeEnd`, and ramps linearly
inside the lead-in and trail-out halves. -/
theorem c3_fade_alpha_amended (s e fs fe : ℚ) (hms : millis s) (hme : millis e)
    (hmfs : millis fs) (hmfe : millis fe) (hlead : fs < s) (hse : s ≤ e)
    (htrail : e < fe) :
    alphaEval s e fs fe s = 1 ∧ alphaEval s e fs fe e = 1 ∧
    alphaEval s e fs fe fs = 0 ∧ alphaEval s e fs fe fe = 0 ∧
    (∀ t, fs ≤ t → t ≤ s → alphaEval s e fs fe t = (t - fs) / (s - fs)) ∧
    (∀ t, e ≤ t → t ≤ fe → alphaEval s e fs fe t = 1 - (t - e) / (fe - e)) := by
  have key := alphaEval_closed_form s e fs fe hms hme hmfs hmfe hlead htrail
  have hsfs : s - fs ≠ 0 := ne_of_gt (sub_pos.mpr hlead)
  have hfee : fe - e ≠ 0 := ne_of_gt (sub_pos.mpr htrail)
  refine ⟨?_, ?_, ?_, ?_, ?_, ?_⟩
  · rw [key s, if_pos ⟨le_of_lt hlead, le_refl s⟩, div_self hsfs]
  · rw [key e]
    by_cases hes : e ≤ s
    · have : e = s := le_antisymm hes hse
      rw [if_pos ⟨this ▸ le_of_lt hlead, hes⟩, this, div_self hsfs]
    · rw [if_neg (fun hc => hes hc.2), if_pos ⟨hse, le_refl e⟩]
  · rw [key fs, if_pos ⟨le_refl fs, le_of_lt hlead⟩, sub_self, zero_div]
  · have h1 : ¬ fe ≤ s := not_le.mpr (lt_of_le_of_lt hse htrail)
    have h2 : ¬ fe ≤ e := not_le.mpr htrail
    rw [key fe, if_neg (fun hc => h1 hc.2), if_neg (fun hc => h2 hc.2),
      if_pos ⟨le_of_lt htrail, le_refl fe⟩, div_self hfee, sub_self]
  · intro t h1 h2
    rw [key t, if_pos ⟨h1, h2⟩]
  · intro t h1 h2
    rw [key t]
    by_cases hts : t ≤ s
    · have hte : t = e := le_antisymm (le_trans hts hse) h1
      have hst : s ≤ t := by rw [hte]; exact hse
      have hts' : t = s := le_antisymm hts hst
      have hes : e = s := hte.symm.trans hts'
      rw [if_pos ⟨by rw [hts']; exact le_of_lt hlead, hts⟩, hts', hes,
        div_self hsfs, sub_self, zero_div, sub_zero]
    · rw [if_neg (fun hc => hts hc.2)]
      by_cases hte : t ≤ e
      · have ht : t = e := le_antisymm hte h1
        rw [if_pos ⟨le_of_lt (not_le.mp hts), hte⟩, ht, sub_self, zero_div, sub_zero]
      · rw [if_neg (fun hc => hte hc.2), if_pos ⟨h1, h2⟩]

/-- Witness for C3 (amended): a chapter holding from 1 s to 10 s with the
default 0.5 s fade (window `[0.75, 10.25]`). -/
theorem c3_fade_alpha_amended_witness :
    alphaEval 1 10 (3 / 4) (41 / 4) 1 = 1 ∧ alphaEval 1 10 (3 / 4) (41 / 4) 10 = 1 ∧
    alphaEval 1 10 (3 / 4) (41 / 4) (3 / 4) = 0 ∧
    alphaEval 1 10 (3 / 4) (41 / 4) (41 / 4) = 0 ∧
    (∀ t, 3 / 4 ≤ t → t ≤ 1 → alphaEval 1 10 (3 / 4) (41 / 4) t = (t - 3 / 4) / (1 - 3 / 4)) ∧
    (∀ t, 10 ≤ t → t ≤ 41 / 4 →
      alphaEval 1 10 (3 / 4) (41 / 4) t = 1 - (t - 10) / (41 / 4 - 10)) :=
  c3_fade_alpha_amended 1 10 (3 / 4) (41 / 4)
    ⟨1000, by norm_num⟩ ⟨10000, by norm_num⟩ ⟨750, by norm_num⟩ ⟨10250, by norm_num⟩
    (by norm_num) (by norm_num) (by norm_num)

/-- C3 counterexample: a titled chapter starting at 1.0004 s (end 50 s,
duration 100 s, default 0.5 s fade) has the fade window
`[0.7504, 50.25]` with nonzero lead-in and trail-out, yet the emitted alpha
expression evaluates to `0.0016`, not `0`, at `fadeStart = 0.7504` — the
`:.3f` serialization of the window boundaries shifts the ramp. -/
theorem c3_fade_alpha_counterexample :
    cornerOp 100 (1 / 2) ⟨10004 / 10000, some "A"⟩ 50
      = some (FilterPart.corner (7504 / 10000) (10004 / 10000) 50 (201 / 4) "A") ∧
    (7504 : ℚ) / 10000 < 10004 / 10000 ∧ (50 : ℚ) < 201 / 4 ∧
    alphaEval (10004 / 10000) 50 (7504 / 10000) (201 / 4) (7504 / 10000) = 1 / 625 ∧
    ((1 : ℚ) / 625 ≠ 0) := by
  refine ⟨?_, by norm_num, by norm_num, ?_, by norm_num⟩
  · norm_num +decide [cornerOp, titleTruthy, min_def, max_def]
  · norm_num +decide [alphaEval, pyRound]

/-- C4 counterexample: with duration 100, the line `time=00:00:10.00` followed
one wall-clock second later by `time=00:00:20.00` makes the second callback
report progress `0.20`, but the smoothed speed is
`0.7*1.0 + 0.3*10 = 3.7`, not ≈10× — the 10× figure is the instantaneous
speed before smoothing. -/
theorem c4_progress_scenario_counterexample :
    c4run = some (some (1 / 5), 37 / 10) ∧ ((37 : ℚ) / 10 ≠ 10) := by
  constructor
  · norm_num +decide [c4run, parse_line, parse_time, parse_other_info, update_speed, mkParser,
      reSearch, matchLongTimeAt, matchShortTimeAt, matchFrameAt, matchSpeedAt, matchTwoDigits,
      readDigitsAux, isPySpace, pyFloatPart, pyFloatCore, splitSign, stripChars, min_def]
  · norm_num

/-- C4 (amended): from any construction instant `t0`, receiving
`time=00:00:10.00` at `t0` and `time=00:00:20.00` at `t0 + 1` makes the first
callback report `0.10` and the second `0.20`, and leaves the smoothed speed at
`0.7*1.0 + 0.3*(10/1) = 3.7` (the instantaneous speed `Δelapsed/Δwallclock`
being 10×, sampled because more than 0.5 s of wall-clock time passed). -/
theorem c4_progress_scenario_amended (t0 : ℚ) :
    ∃ st1 st2 : ParserState,
      parse_line (mkParser 100 t0) "time=00:00:10.00" t0 = some (st1, some (1 / 10)) ∧
      parse_line st1 "time=00:00:20.00" (t0 + 1) = some (st2, some (1 / 5)) ∧
      st2.currentSpeed = 7 / 10 * 1 + 3 / 10 * ((20 - 10) / 1) ∧
      st2.currentSpeed = 37 / 10 := by
  have hpt1 : parse_time "time=00:00:10.00" = some 10 := by
    norm_num +decide [parse_time, reSearch, matchLongTimeAt, matchShortTimeAt, matchTwoDigits,
      readDigitsAux]
  have hpt2 : parse_time "time=00:00:20.00" = some 20 := by
    norm_num +decide [parse_time, reSearch, matchLongTimeAt, matchShortTimeAt, matchTwoDigits,
      readDigitsAux]
  have hf1 : reSearch matchFrameAt "time=00:00:10.00".data = none := by decide
  have hs1 : reSearch matchSpeedAt "time=00:00:10.00".data = none := by decide
  have hf2 : reSearch matchFrameAt "time=00:00:20.00".data = none := by decide
  have hs2 : reSearch matchSpeedAt "time=00:00:20.00".data = none := by decide
  refine ⟨⟨100, 1 / 10, 10, t0, t0, 1, 0⟩, ⟨100, 1 / 5, 20, t0, t0 + 1, 37 / 10, 0⟩, ?_, ?_, ?_, ?_⟩
  · simp only [parse_line, hpt1, parse_other_info, hf1, hs1, update_speed, mkParser]
    norm_num
  · simp only [parse_line, hpt2, parse_other_info, hf2, hs2, update_speed]
    norm_num
  · norm_num
  · norm_num

/-- Every character of the input either is a digit or survives into the
rest returned by the digit reader. -/
theorem readDigitsAux_mem :
    ∀ (l : List Char) (acc cnt : ℕ) (c : Char), c ∈ l →
      c.isDigit = true ∨ c ∈ (readDigitsAux acc cnt l).2.2 := by
  intro l
  induction l with
  | nil => intro acc cnt c h; cases h
  | cons d rest ih =>
    intro acc cnt c h
    simp only [readDigitsAux]
    by_cases hd : d.isDigit
    · rw [if_pos hd]
      rcases List.mem_cons.mp h with rfl | hrest
      · exact Or.inl hd
      · exact ih _ _ c hrest
    · rw [if_neg hd]
      exact Or.inr h

/-- A character other than a sign survives the sign splitter. -/
theorem mem_splitSign_of_mem (c : Char) (l : List Char) (h : c ∈ l)
    (hp : c ≠ '+') (hm : c ≠ '-') : c ∈ (splitSign l).2 := by
  unfold splitSign
  split
  · next r => exact (List.mem_cons.mp h).resolve_left hp
  · next r => exact (List.mem_cons.mp h).resolve_left hm
  · exact h

/-- A successfully `float`-parsed character list contains no colon. -/
theorem pyFloatCore_no_colon (l : List Char) (v : ℚ)
    (h : pyFloatCore l = some v) : ':' ∉ l := by
  intro hmem
  have hm2 : ':' ∈ (splitSign l).2 :=
    mem_splitSign_of_mem ':' l hmem (by decide) (by decide)
  have hm3 : ':' ∈ (readDigitsAux 0 0 (splitSign l).2).2.2 :=
    (readDigitsAux_mem (splitSign l).2 0 0 ':' hm2).resolve_left (by decide)
  simp only [pyFloatCore] at h
  split at h
  · next heq => rw [heq] at hm3; cases hm3
  · next r heq =>
    rw [heq] at hm3
    rcases List.mem_cons.mp hm3 with hcol | hr
    · exact absurd hcol (by decide)
    · split_ifs at h with hq
      rcases readDigitsAux_mem r 0 0 ':' hr with hd | h4
      · exact absurd hd (by decide)
      · rw [hq.1] at h4; cases h4
  · exact Option.noConfusion h

/-- `str.split` never returns an empty list of pieces. -/
theorem pySplit_ne_nil (sep : Char) : ∀ l : List Char, pySplit sep l ≠ [] := by
  intro l
  induction l with
  | nil => simp [pySplit]
  | cons c rest ih =>
    simp only [pySplit]
    by_cases hc : c = sep
    · rw [if_pos hc]; exact List.cons_ne_nil _ _
    · rw [if_neg hc]
      rcases hr : pySplit sep rest with _ | ⟨h0, t⟩
      · exact absurd hr ih
      · exact List.cons_ne_nil _ _

/-- A one-piece split result is the whole input. -/
theorem pySplit_single (sep : Char) :
    ∀ (l : List Char) (x : List Char), pySplit sep l = [x] → x = l := by
  intro l
  induction l with
  | nil =>
    intro x h
    simp only [pySplit] at h
    exact (List.cons.inj h).1.symm
  | cons c rest ih =>
    intro x h
    simp only [pySplit] at h
    by_cases hc : c = sep
    · rw [if_pos hc] at h
      exact absurd (List.cons.inj h).2 (pySplit_ne_nil sep rest)
    · rw [if_neg hc] at h
      rcases hr : pySplit sep rest with _ | ⟨h0, t⟩
      · exact absurd hr (pySplit_ne_nil sep rest)
      · rw [hr] at h
        obtain ⟨hx, ht⟩ := List.cons.inj h
        have : h0 = rest := ih h0 (ht ▸ hr)
        rw [← hx, this]

/-- Splitting on an absent separator returns the whole input as one piece. -/
theorem pySplit_no_sep (sep : Char) :
    ∀ l : List Char, sep ∉ l → pySplit sep l = [l] := by
  intro l
  induction l with
  | nil => intro _; rfl
  | cons c rest ih =>
    intro h
    have hc : ¬ c = sep := fun hc => h (hc ▸ List.mem_cons_self c rest)
    have hrest : sep ∉ rest := fun hr => h (List.mem_cons_of_mem c hr)
    simp only [pySplit, if_neg hc, ih hrest]

/-- A non-whitespace character survives `dropWhile isPySpace`. -/
theorem mem_dropWhile_of_not_space (c : Char) (l : List Char) (h : c ∈ l)
    (hs : isPySpace c = false) : c ∈ l.dropWhile isPySpace := by
  have hsplit : l.takeWhile isPySpace ++ l.dropWhile isPySpace = l :=
    List.takeWhile_append_dropWhile isPySpace l
  rcases List.mem_append.mp (hsplit ▸ h) with htk | hdw
  · exact absurd (List.mem_takeWhile_imp htk) (by simp [hs])
  · exact hdw

/-- A non-whitespace character survives stripping. -/
theorem mem_stripChars_of_not_space (c : Char) (l : List Char) (h : c ∈ l)
    (hs : isPySpace c = false) : c ∈ stripChars l := by
  unfold stripChars
  rw [List.mem_reverse]
  exact mem_dropWhile_of_not_space c _
    (List.mem_reverse.mpr (mem_dropWhile_of_not_space c l h hs)) hs

/-- C8: the shared time-string parser realizes exactly the specified grammar —
a bare number is that many seconds, `MM:SS` is `minutes*60+seconds`,
`HH:MM:SS` is `hours*3600+minutes*60+seconds`, and every other shape is a
parse error (`none`). -/
theorem c8_time_grammar (s : String) :
    time_string_to_seconds s = timeGrammarSpec s := by
  simp only [time_string_to_seconds, timeGrammarSpec]
  cases hf : pyFloatPart (stripChars s.data) with
  | some v =>
    have hnc : ':' ∉ stripChars s.data := by
      intro hmem
      have h2 : ':' ∈ stripChars (stripChars s.data) :=
        mem_stripChars_of_not_space ':' _ hmem (by decide)
      exact absurd h2 (pyFloatCore_no_colon _ v hf)
    rw [pySplit_no_sep ':' _ hnc]
    exact hf.symm
  | none =>
    rcases hsp : pySplit ':' (stripChars s.data) with _ | ⟨a, rest⟩
    · exact absurd hsp (pySplit_ne_nil ':' _)
    rcases rest with _ | ⟨b, rest2⟩
    · have ha : a = stripChars s.data := pySplit_single ':' _ a hsp
      simp [ha, hf]
    rcases rest2 with _ | ⟨c, rest3⟩
    · rfl
    rcases rest3 with _ | ⟨d, rest4⟩
    · rfl
    · rfl

/-- Witness for C4 (amended) at construction instant 0. -/
theorem c4_progress_scenario_amended_witness :
    ∃ st1 st2 : ParserState,
      parse_line (mkParser 100 0) "time=00:00:10.00" 0 = some (st1, some (1 / 10)) ∧
      parse_line st1 "time=00:00:20.00" (0 + 1) = some (st2, some (1 / 5)) ∧
      st2.currentSpeed = 7 / 10 * 1 + 3 / 10 * ((20 - 10) / 1) ∧
      st2.currentSpeed = 37 / 10 :=
  c4_progress_scenario_amended 0

/-- Witness for C7 at the concrete title `"Hello"` with budget 40 px and font
size 28. -/
theorem c7_truncate_idempotent_witness :
    truncate_text_by_width (truncate_text_by_width "Hello" 40 28) 40 28
      = truncate_text_by_width "Hello" 40 28 :=
  c7_truncate_idempotent "Hello" 40 28

/-- Witness for C8 at the concrete string `"01:30"`. -/
theorem c8_time_grammar_witness :
    time_string_to_seconds "01:30" = timeGrammarSpec "01:30" :=
  c8_time_grammar "01:30"

end VPB
